import Mathlib

/-
Verification development for the ai-backend image-generation service.

The embedding below translates the job-lifecycle logic of the repository
(src/app/main.py, src/app/fal_api.py, src/app/models.py) into Lean:

* external effects (the fal_client status/result calls, the submit handler,
  database sessions) are passed in explicitly as values describing the outcome
  of each call;
* a job row is a Lean structure mirroring the jobs table in models.py;
* each HTTP handler and the background monitor become pure functions from
  the store and the modelled external outcomes to the updated store and the
  observable response fields the claims talk about.
-/

/-! ### Status strings and fixed messages used by the source -/

def stPending : String := "pending"

def stQueued : String := "queued"

def stProcessing : String := "processing"

def stCompleted : String := "completed"

def stFailed : String := "failed"

def stUnknown : String := "unknown"

/-! ### Job rows, mirroring the jobs table of models.py -/

structure Job where
  id : Nat
  prompt : String
  image_url : Option String
  result_url : Option String
  status : String
  application : Option String
  fal_request_id : Option String
  owner_id : Nat
  strength : Option Rat
deriving DecidableEq, Repr

/-- Python truthiness of an optional string: None and the empty string are
falsy, any other string is truthy (used for `if job.fal_request_id:`). -/
def optStrTruthy (o : Option String) : Bool :=
  match o with
  | none => false
  | some s => s != ""

/-! ### fal_api.check_job_status

One call to fal_api.check_job_status performs up to two external calls:
fal_client.status and fal_client.result.  A FalCall value records the outcome
of those two calls for one poll: each either raises (error) or returns.
fal_client.status returns an object whose class is one of Completed,
InProgress, Queued or something else; fal_client.result returns a payload
from which the code extracts images[0]["url"] when the images list is
non-empty. -/

inductive FalRawStatus where
  | completed
  | inProgress
  | queued
  | other
deriving DecidableEq, Repr

structure FalResult where
  images : List (Option String)
  description : String
deriving DecidableEq, Repr

structure FalCall where
  statusCall : Except Unit FalRawStatus
  resultCall : Except Unit FalResult

/-- The url extraction of fal_api.py lines 80 and 115:
result.get("images", [\x7b\x7d])[0].get("url") if result.get("images") else None.
A falsy (missing or empty) images list yields None, otherwise the url of the
first image (itself possibly absent). -/
def extract_url (images : List (Option String)) : Option String :=
  match images with
  | [] => none
  | u :: _ => u

/-- The dictionary returned by fal_api.check_job_status, restricted to the two
keys its callers in main.py read: status and result_url. -/
structure StatusResult where
  status : String
  result_url : Option String
deriving DecidableEq, Repr

namespace FalApi

/-- fal_api.check_job_status, lines 60-123.  `key` is the truthiness of
FAL_API_KEY; when it is false the function raises (HTTPException) before
entering the try block, modelled as Except.error.  Otherwise it never raises:
a Completed status triggers a result fetch whose own failure is recorded as
status failed; a raising status call falls back to a direct result fetch,
and when that also raises the function returns status pending. -/
def check_job_status (key : Bool) (call : FalCall) : Except Unit StatusResult :=
  if key = false then Except.error ()
  else
    match call.statusCall with
    | Except.ok FalRawStatus.completed =>
        match call.resultCall with
        | Except.ok r => Except.ok ⟨stCompleted, extract_url r.images⟩
        | Except.error _ => Except.ok ⟨stFailed, none⟩
    | Except.ok FalRawStatus.inProgress => Except.ok ⟨stProcessing, none⟩
    | Except.ok FalRawStatus.queued => Except.ok ⟨stQueued, none⟩
    | Except.ok FalRawStatus.other => Except.ok ⟨stPending, none⟩
    | Except.error _ =>
        match call.resultCall with
        | Except.ok r => Except.ok ⟨stCompleted, extract_url r.images⟩
        | Except.error _ => Except.ok ⟨stPending, none⟩

end FalApi

/-! ### The background monitor, main.update_job_status (lines 58-98)

Each loop iteration (one cycle) re-opens a session, fetches the job, calls
fal_api.check_job_status, and if the job row is present writes the reported
status (and, on a completed report, the reported result_url), breaking out of
the loop when the report is completed or failed.  Any exception inside the
iteration is caught and swallowed, after which the loop sleeps and retries.
A CycleOutcome describes one iteration of the external world: either the
fal call happened with a given outcome, or some exception occurred in the
iteration (database failure, missing row attribute access, and so on). -/

inductive CycleOutcome where
  | ok (call : FalCall)
  | exn

/-- The write performed on the job row at main.py lines 77-80: the status is
always overwritten with the reported status, and the result_url is overwritten
only when the report says completed. -/
def applyStatus (j : Job) (sr : StatusResult) : Job :=
  { j with
      status := sr.status,
      result_url := if sr.status == stCompleted then sr.result_url else j.result_url }

/-- The effect of one cycle on a present job row, with the fal call abstracted
away: exceptions (raised by the fal call itself or modelled by
CycleOutcome.exn) leave the row unchanged. -/
def applyCycle (key : Bool) (j : Job) (out : CycleOutcome) : Job :=
  match out with
  | CycleOutcome.exn => j
  | CycleOutcome.ok call =>
      match FalApi.check_job_status key call with
      | Except.error _ => j
      | Except.ok sr => applyStatus j sr

/-- Whether one cycle makes the monitor loop break (main.py line 85): the
fal call must go through and report completed or failed. -/
def cycleTerminal (key : Bool) (out : CycleOutcome) : Bool :=
  match out with
  | CycleOutcome.exn => false
  | CycleOutcome.ok call =>
      match FalApi.check_job_status key call with
      | Except.error _ => false
      | Except.ok sr => sr.status == stCompleted || sr.status == stFailed

/-- One full monitor cycle on the stored row (which may be absent): the row is
updated and the break flag raised only when the fal call succeeded and the row
is present, exactly as in main.py lines 65-89 (the break sits inside
`if job:`). -/
def monitorCycle (key : Bool) (store : Option Job) (out : CycleOutcome) :
    Option Job × Bool :=
  match out with
  | CycleOutcome.exn => (store, false)
  | CycleOutcome.ok call =>
      match FalApi.check_job_status key call with
      | Except.error _ => (store, false)
      | Except.ok sr =>
          match store with
          | none => (none, false)
          | some j =>
              (some (applyStatus j sr), sr.status == stCompleted || sr.status == stFailed)

namespace AppMain

/-- The fixed sleep between polls, main.py line 95. -/
def sleep_seconds : Nat := 5

/-- The attempt ceiling, main.py line 62. -/
def max_attempts : Nat := 120

/-- The while loop of main.update_job_status.  `oracle n` is the outcome of
the external world during the cycle that starts when n polls have already run;
`fuel` is the number of loop iterations still allowed (120 - attempt) and
`polls` the number of cycles already run.  Returns the final stored row and
the total number of cycles run. -/
def monitorRun (key : Bool) (oracle : Nat → CycleOutcome) :
    Nat → Nat → Option Job → Option Job × Nat
  | 0, polls, store => (store, polls)
  | Nat.succ f, polls, store =>
      if (monitorCycle key store (oracle polls)).2 then
        ((monitorCycle key store (oracle polls)).1, polls + 1)
      else monitorRun key oracle f (polls + 1) (monitorCycle key store (oracle polls)).1

/-- main.update_job_status (lines 58-98): run the monitor loop from a fresh
attempt counter with the full 120-iteration budget. -/
def update_job_status (key : Bool) (oracle : Nat → CycleOutcome)
    (store : Option Job) : Option Job × Nat :=
  monitorRun key oracle max_attempts 0 store

/-- The cumulative effect of `fuel` consecutive cycles on a present row,
ignoring break flags: the fold the monitor computes when no cycle is
terminal. -/
def runFrom (key : Bool) (oracle : Nat → CycleOutcome) :
    Nat → Nat → Job → Job
  | 0, _, j => j
  | Nat.succ f, polls, j =>
      runFrom key oracle f (polls + 1) (applyCycle key j (oracle polls))

end AppMain

/-! ### The job store queries used by main.py -/

/-- The owner-scoped lookup
db.query(Job).filter(Job.id == job_id, Job.owner_id == user.id).first()
used at main.py lines 206-209 and 289-292. -/
def find_job_for_owner (store : List Job) (jid uid : Nat) : Option Job :=
  store.find? (fun x => x.id == jid && x.owner_id == uid)

/-- Persisting a mutated row (db.commit after mutating the ORM object): every
row with the primary key i becomes the new value. -/
def updateJob (store : List Job) (i : Nat) (j2 : Job) : List Job :=
  store.map (fun x => if x.id == i then j2 else x)

/-! ### The on-demand status check, main.check_job_status (lines 197-260) -/

/-- The reconciliation performed at main.py lines 227-236 on a fal report:
completed writes the reported result_url and is downgraded to failed when that
url is None; failed and processing are copied; any other reported status
(queued, pending) leaves the row untouched. -/
def reconcile (j : Job) (sr : StatusResult) : Job :=
  if sr.status == stCompleted then
    if sr.result_url = none then
      { j with status := stFailed, result_url := sr.result_url }
    else
      { j with status := stCompleted, result_url := sr.result_url }
  else if sr.status == stFailed then { j with status := stFailed }
  else if sr.status == stProcessing then { j with status := stProcessing }
  else j

/-- The observable outcome of one on-demand status check: the store after the
call, the success flag and the data fields of the response, and whether the
external service was contacted (it is contacted at most once per call by
construction). -/
structure OnDemandOut where
  store : List Job
  success : Bool
  statusOut : Option String
  resultUrlOut : Option String
  queried : Bool
deriving DecidableEq, Repr

namespace AppMain

/-- main.check_job_status (lines 197-260), the GET /api/jobs/{job_id}/status
handler.  The fal call outcome for the single potential external query is
passed in as `call`; a missing FAL key makes that query raise, which the
handler catches, leaving the row as stored.  The external service is queried
iff the stored row was found, its status equals completed, and its
fal_request_id is truthy; the response data always carries the (possibly just
updated) stored status, and carries a result_url only when the query returned
one. -/
def check_job_status (key : Bool) (call : FalCall) (store : List Job)
    (jid uid : Nat) : OnDemandOut :=
  match find_job_for_owner store jid uid with
  | none => ⟨store, false, none, none, false⟩
  | some j =>
      if j.status == stCompleted && optStrTruthy j.fal_request_id then
        match FalApi.check_job_status key call with
        | Except.error _ => ⟨store, true, some j.status, none, true⟩
        | Except.ok sr =>
            ⟨updateJob store j.id (reconcile j sr), true,
             some (reconcile j sr).status, sr.result_url, true⟩
      else ⟨store, true, some j.status, none, false⟩

end AppMain

/-! ### main.get_job (lines 287-305) -/

def msgJobNotFound : String := "Job not found"

def msgJobRetrieved : String := "Job retrieved successfully"

/-- The BaseResponse fields of GET /api/jobs/{job_id}. -/
structure GetJobOut where
  success : Bool
  message : String
  data : Option Job
deriving DecidableEq, Repr

namespace AppMain

/-- main.get_job: owner-scoped single-row read, no reconciliation. -/
def get_job (store : List Job) (jid uid : Nat) : GetJobOut :=
  match find_job_for_owner store jid uid with
  | none => ⟨false, msgJobNotFound, none⟩
  | some j => ⟨true, msgJobRetrieved, some j⟩

end AppMain

/-! ### main.list_jobs (lines 262-285) -/

/-- order_by(Job.id.desc()): sort rows by descending primary key. -/
def jobsDesc (l : List Job) : List Job :=
  l.insertionSort (fun a b => b.id ≤ a.id)

namespace AppMain

/-- main.list_jobs: filter by owner, order newest first (descending id),
offset (page - 1) * limit, take limit. -/
def list_jobs (store : List Job) (uid page limit : Nat) : List Job :=
  ((jobsDesc (store.filter (fun j => j.owner_id == uid))).drop
      ((page - 1) * limit)).take limit

end AppMain

/-! ### Job creation: fal_api.submit_fal_job and main.create_job -/

/-- One multipart file upload as create_job sees it: the filename and content
type of the part, the byte length of its payload, the base64 rendering of the
payload, and the outcome of PIL Image.open on it (the pixel dimensions, or
None when opening raises). -/
structure Upload where
  filename : String
  content_type : String
  data_len : Nat
  b64 : String
  pil : Option (Nat × Nat)
deriving DecidableEq, Repr

def maxImageBytes : Nat := 10 * 1024 * 1024

def imgCtStr : String := "image/"

/-- content_type.startswith("image/"), modelled on the character lists of the
two strings. -/
def isImageContentType (ct : String) : Bool :=
  List.isPrefixOf imgCtStr.data ct.data

def msgNotImage : String := "File must be an image"

def msgTooLargeBytes : String := "Image too large (max 10MB)"

def msgInvalidImage : String := "Invalid image file"

def msgTooSmallDims : String := "Image too small (min 64x64 pixels)"

def msgTooLargeDims : String := "Image too large (max 4096x4096 pixels)"

/-- The inline validation chain of main.create_job lines 114-156, run only
when an upload with a truthy filename is present: content type must start
with image/, payload at most 10MB, PIL must open it, and the dimensions must
lie within [64, 4096] on each axis.  Returns the rejection message, or None
when the upload passes. -/
def validate_upload (u : Upload) : Option String :=
  if isImageContentType u.content_type = false then some msgNotImage
  else if u.data_len > maxImageBytes then some msgTooLargeBytes
  else
    match u.pil with
    | none => some msgInvalidImage
    | some wh =>
        if wh.1 < 64 || wh.2 < 64 then some msgTooSmallDims
        else if wh.1 > 4096 || wh.2 > 4096 then some msgTooLargeDims
        else none

/-- Python truthiness of the optional image_bytes value: absent or empty
bytes are falsy. -/
def imageTruthy (o : Option Nat) : Bool :=
  match o with
  | none => false
  | some n => n != 0

structure SubmitResp where
  request_id : String
  application : String
deriving DecidableEq, Repr

def epEdit : String := "fal-ai/nano-banana/edit"

def epText : String := "fal-ai/nano-banana"

def msgKeyMissing : String := "FAL API key not configured"

def msgSubmitFailed : String := "Failed to submit job to AI service"

namespace FalApi

/-- fal_api.submit_fal_job (lines 10-58): raises when the FAL key is
unconfigured; otherwise chooses the image-to-image endpoint iff image bytes
are truthy and forwards the fal_client.submit outcome (`handler`), wrapping
any submit failure in an HTTPException.  Both failure modes surface to the
caller as a raised exception carrying a message. -/
def submit_fal_job (key : Bool) (image_len : Option Nat)
    (handler : Except Unit String) : Except String SubmitResp :=
  if key = false then Except.error msgKeyMissing
  else
    match handler with
    | Except.error _ => Except.error msgSubmitFailed
    | Except.ok rid =>
        Except.ok ⟨rid, if imageTruthy image_len then epEdit else epText⟩

end FalApi

def msgJobCreated : String := "Job created successfully"

def msgCreateFailedPre : String := "Failed to create job: "

def dataUrlPre : String := "data:image/jpeg;base64,"

/-- The observable outcome of POST /api/jobs: the BaseResponse success flag
and message, whether fal_api.submit_fal_job was invoked at all, and the
persisted row if one was committed. -/
structure CreateOut where
  success : Bool
  message : String
  attempted_submit : Bool
  job : Option Job
deriving DecidableEq, Repr

namespace AppMain

/-- The tail of main.create_job (lines 161-195): submit to fal, and on
success persist the new row in pending with the endpoint and request id from
the submission; any exception from the submission yields a failure response
and no row. -/
def create_submit (key : Bool) (image_len : Option Nat)
    (image_url : Option String) (handler : Except Unit String)
    (uid newId : Nat) (prompt : String) (strength : Rat) : CreateOut :=
  match FalApi.submit_fal_job key image_len handler with
  | Except.error msg => ⟨false, String.append msgCreateFailedPre msg, true, none⟩
  | Except.ok resp =>
      ⟨true, msgJobCreated, true,
       some { id := newId, prompt := prompt, image_url := image_url,
              result_url := none, status := stPending,
              application := some resp.application,
              fal_request_id := some resp.request_id, owner_id := uid,
              strength := if imageTruthy image_len then some strength else none }⟩

/-- main.create_job (lines 100-195).  An upload with a truthy filename is
validated before anything else; a rejection returns the validation message
with no submission and no row.  Otherwise (or when no image part is present)
the job is submitted and persisted. -/
def create_job (key : Bool) (upload : Option Upload)
    (handler : Except Unit String) (uid newId : Nat) (prompt : String)
    (strength : Rat) : CreateOut :=
  match upload with
  | some u =>
      if u.filename != "" then
        match validate_upload u with
        | some msg => ⟨false, msg, false, none⟩
        | none =>
            create_submit key (some u.data_len)
              (some (String.append dataUrlPre u.b64)) handler uid newId
              prompt strength
      else create_submit key none none handler uid newId prompt strength
  | none => create_submit key none none handler uid newId prompt strength

end AppMain

/-! ### Concrete sample values -/

def rid1 : String := "req-1"

def urlStr : String := "https://fal.example/out.jpg"

/-- A freshly created row, as main.create_job persists it. -/
def pendingJob : Job :=
  { id := 1, prompt := "a red bicycle", image_url := none, result_url := none,
    status := stPending, application := some epText,
    fal_request_id := some rid1, owner_id := 1, strength := none }

/-- A row already believed complete, with a stored result. -/
def completedJob : Job :=
  { id := 2, prompt := "a blue house", image_url := none,
    result_url := some urlStr, status := stCompleted,
    application := some epText, fal_request_id := some rid1, owner_id := 1,
    strength := none }

/-- A poll during which both fal_client.status and fal_client.result raise. -/
def failCall : FalCall := ⟨Except.error (), Except.error ()⟩

/-- A poll during which fal_client.status reports Completed and
fal_client.result returns a payload with an empty images list, so no url is
extractable. -/
def nullResultCall : FalCall :=
  ⟨Except.ok FalRawStatus.completed, Except.ok ⟨[], ""⟩⟩

/-- A poll during which fal_client.status reports Completed but
fal_client.result raises. -/
def failedResultCall : FalCall :=
  ⟨Except.ok FalRawStatus.completed, Except.error ()⟩

/-- A poll during which fal_client.status reports InProgress. -/
def processingCall : FalCall :=
  ⟨Except.ok FalRawStatus.inProgress, Except.error ()⟩

/-! ### Claim theorems -/

/-- Claim C1 (refuted by the code, supporting the code-bug verdict): the
spec invariant says a stored status of completed implies a non-null
result_url, with a result-less completed report forced to failed.  The
background monitor violates it: on a poll where the external service reports
Completed and the result fetch succeeds but carries no extractable url, the
monitor persists status completed together with a null result_url and stops. -/
theorem monitor_stores_completed_with_null_result :
    (AppMain.update_job_status true (fun _ => CycleOutcome.ok nullResultCall)
        (some pendingJob)).1
      = some { pendingJob with status := stCompleted, result_url := none } :=
  rfl

/-- Claim C2, counterexample: the claim says that when both the status query
and the fallback result fetch fail, the poll reports the status unknown; the
code instead reports pending.  Moreover the poll does raise on one input,
namely when the service credential is unconfigured. -/
theorem poll_both_failures_not_unknown :
    FalApi.check_job_status true failCall = Except.ok ⟨stPending, none⟩ ∧
    stPending ≠ stUnknown ∧
    FalApi.check_job_status false failCall = Except.error () :=
  ⟨rfl, by decide, rfl⟩

/-- Claim C2 as amended: when the service credential is configured, the poll
never raises; on a status-query failure it falls back to a direct result
fetch, reporting completed with the fetched result when that succeeds, and
reporting pending (a non-terminal status) when it also fails. -/
theorem poll_status_never_raises_with_fallback (call : FalCall) :
    (∃ sr, FalApi.check_job_status true call = Except.ok sr) ∧
    (call.statusCall = Except.error () → call.resultCall = Except.error () →
      FalApi.check_job_status true call = Except.ok ⟨stPending, none⟩) ∧
    (∀ r, call.statusCall = Except.error () → call.resultCall = Except.ok r →
      FalApi.check_job_status true call =
        Except.ok ⟨stCompleted, extract_url r.images⟩) := by
  obtain ⟨s, r⟩ := call
  cases s with
  | ok v => cases v <;> cases r <;> simp [FalApi.check_job_status]
  | error e => cases r <;> simp [FalApi.check_job_status]

/-- Witness for the amended claim C2 at the concrete double-failure poll. -/
theorem poll_status_never_raises_witness :
    failCall.statusCall = Except.error () ∧
    failCall.resultCall = Except.error () ∧
    FalApi.check_job_status true failCall = Except.ok ⟨stPending, none⟩ :=
  ⟨rfl, rfl,
    (poll_status_never_raises_with_fallback failCall).2.1 rfl rfl⟩

/-- Claim C7: whenever the external poll reports completed but the result
extraction raises, the fal client reports failed with no result, the
background monitor records failed (and stops), and the on-demand
reconciliation of such a report records failed — never completed. -/
theorem completed_report_result_throws_failed (call : FalCall) (j jj : Job)
    (h1 : call.statusCall = Except.ok FalRawStatus.completed)
    (h2 : call.resultCall = Except.error ()) :
    FalApi.check_job_status true call = Except.ok ⟨stFailed, none⟩ ∧
    monitorCycle true (some j) (CycleOutcome.ok call) =
      (some { j with status := stFailed }, true) ∧
    reconcile jj ⟨stFailed, none⟩ = { jj with status := stFailed } := by
  obtain ⟨s, r⟩ := call
  cases h1
  cases h2
  exact ⟨rfl, rfl, rfl⟩

/-- Witness for claim C7 at a concrete poll and concrete rows. -/
theorem completed_report_result_throws_failed_witness :
    failedResultCall.statusCall = Except.ok FalRawStatus.completed ∧
    failedResultCall.resultCall = Except.error () ∧
    (FalApi.check_job_status true failedResultCall =
        Except.ok ⟨stFailed, none⟩ ∧
      monitorCycle true (some pendingJob) (CycleOutcome.ok failedResultCall) =
        (some { pendingJob with status := stFailed }, true) ∧
      reconcile completedJob ⟨stFailed, none⟩ =
        { completedJob with status := stFailed }) :=
  ⟨rfl, rfl,
    completed_report_result_throws_failed failedResultCall pendingJob
      completedJob rfl rfl⟩

/-- Claim C10: when both the external status query and the fallback result
fetch fail during a background poll cycle, the poll returns status pending
and the monitor persists pending over whatever non-terminal status was
stored, without stopping. -/
theorem poll_failure_persists_pending (j : Job) :
    FalApi.check_job_status true failCall = Except.ok ⟨stPending, none⟩ ∧
    monitorCycle true (some j) (CycleOutcome.ok failCall) =
      (some { j with status := stPending }, false) :=
  ⟨rfl, rfl⟩

/-! ### Lemmas about the monitor loop -/

/-- On a present row, one monitor cycle computes applyCycle and the
cycleTerminal flag. -/
lemma monitorCycle_some (key : Bool) (j : Job) (out : CycleOutcome) :
    monitorCycle key (some j) out =
      (some (applyCycle key j out), cycleTerminal key out) := by
  cases out with
  | exn => rfl
  | ok call =>
      cases h : FalApi.check_job_status key call with
      | ok sr => simp [monitorCycle, applyCycle, cycleTerminal, h]
      | error e => simp [monitorCycle, applyCycle, cycleTerminal, h]

/-- The number of cycles the loop runs never exceeds the remaining budget. -/
lemma monitorRun_count_le (key : Bool) (oracle : Nat → CycleOutcome) :
    ∀ fuel polls store,
      (AppMain.monitorRun key oracle fuel polls store).2 ≤ polls + fuel := by
  intro fuel
  induction fuel with
  | zero => intro polls store; simp [AppMain.monitorRun]
  | succ f ih =>
      intro polls store
      simp only [AppMain.monitorRun]
      by_cases h : (monitorCycle key store (oracle polls)).2
      · simp only [h, if_true]; omega
      · simp only [h, if_false, Bool.false_eq_true]
        have := ih (polls + 1) (monitorCycle key store (oracle polls)).1
        omega

/-- When no cycle in the budget is terminal, the loop runs the whole budget
and the final row is the fold of all the cycles. -/
lemma monitorRun_nonterminal (key : Bool) (oracle : Nat → CycleOutcome) :
    ∀ fuel polls (j : Job),
      (∀ k, k < fuel → cycleTerminal key (oracle (polls + k)) = false) →
      AppMain.monitorRun key oracle fuel polls (some j) =
        (some (AppMain.runFrom key oracle fuel polls j), polls + fuel) := by
  intro fuel
  induction fuel with
  | zero => intro polls j _; simp [AppMain.monitorRun, AppMain.runFrom]
  | succ f ih =>
      intro polls j h
      have h0 : cycleTerminal key (oracle polls) = false := by
        simpa using h 0 (Nat.succ_pos f)
      simp only [AppMain.monitorRun, AppMain.runFrom, monitorCycle_some, h0,
        if_false, Bool.false_eq_true]
      rw [ih (polls + 1) (applyCycle key j (oracle polls))
        (fun k hk => by
          have := h (k + 1) (by omega)
          simpa [Nat.add_assoc, Nat.add_comm 1 k] using this)]
      simp [Nat.add_assoc, Nat.add_comm 1 f]

/-- The loop stops right after the first terminal cycle. -/
lemma monitorRun_stops_at_first_terminal (key : Bool)
    (oracle : Nat → CycleOutcome) :
    ∀ i fuel polls (j : Job), i < fuel →
      cycleTerminal key (oracle (polls + i)) = true →
      (∀ k, k < i → cycleTerminal key (oracle (polls + k)) = false) →
      (AppMain.monitorRun key oracle fuel polls (some j)).2 = polls + i + 1 := by
  intro i
  induction i with
  | zero =>
      intro fuel polls j hif ht _
      cases fuel with
      | zero => omega
      | succ f =>
          have ht0 : cycleTerminal key (oracle polls) = true := by simpa using ht
          simp [AppMain.monitorRun, monitorCycle_some, ht0]
  | succ n ih =>
      intro fuel polls j hif ht hk
      cases fuel with
      | zero => omega
      | succ f =>
          have h0 : cycleTerminal key (oracle polls) = false := by
            simpa using hk 0 (Nat.succ_pos n)
          simp only [AppMain.monitorRun, monitorCycle_some, h0, if_false,
            Bool.false_eq_true]
          have hrec := ih f (polls + 1) (applyCycle key j (oracle polls))
            (by omega)
            (by
              have : polls + 1 + n = polls + (n + 1) := by omega
              rw [this]; exact ht)
            (fun k hkn => by
              have := hk (k + 1) (by omega)
              simpa [Nat.add_assoc, Nat.add_comm 1 k] using this)
          rw [hrec]
          omega

/-- A fold of non-terminal cycles never writes the status failed onto a row
whose status is not failed. -/
lemma runFrom_keeps_not_failed (key : Bool) (oracle : Nat → CycleOutcome) :
    ∀ fuel polls (j : Job), j.status ≠ stFailed →
      (∀ k, k < fuel → cycleTerminal key (oracle (polls + k)) = false) →
      (AppMain.runFrom key oracle fuel polls j).status ≠ stFailed := by
  intro fuel
  induction fuel with
  | zero => intro polls j hj _; simpa [AppMain.runFrom] using hj
  | succ f ih =>
      intro polls j hj h
      simp only [AppMain.runFrom]
      apply ih (polls + 1)
      · have h0 : cycleTerminal key (oracle polls) = false := by
          simpa using h 0 (Nat.succ_pos f)
        cases ho : oracle polls with
        | exn => simpa [applyCycle] using hj
        | ok call =>
            rw [ho] at h0
            cases hc : FalApi.check_job_status key call with
            | error e => simpa [applyCycle, hc] using hj
            | ok sr =>
                simp only [cycleTerminal, hc, Bool.or_eq_false_iff,
                  beq_eq_false_iff_ne, ne_eq] at h0
                simpa [applyCycle, hc, applyStatus] using h0.2
      · intro k hk
        have := h (k + 1) (by omega)
        simpa [Nat.add_assoc, Nat.add_comm 1 k] using this

/-- Claim C4: the background monitor always terminates.  It runs at most 120
cycles with a fixed 5 second wait, stops right after the first cycle whose
report is terminal (completed or failed), and when no cycle in the 120-cycle
budget is terminal it runs exactly 120 cycles, leaves the row at the fold of
the observed non-terminal reports, and in particular never forcibly marks a
non-failed row as failed. -/
theorem monitor_bounded_termination (key : Bool) (oracle : Nat → CycleOutcome)
    (j : Job) :
    AppMain.sleep_seconds = 5 ∧
    AppMain.max_attempts = 120 ∧
    (AppMain.update_job_status key oracle (some j)).2 ≤ 120 ∧
    (∀ i, i < 120 → cycleTerminal key (oracle i) = true →
      (∀ k, k < i → cycleTerminal key (oracle k) = false) →
      (AppMain.update_job_status key oracle (some j)).2 = i + 1) ∧
    ((∀ i, i < 120 → cycleTerminal key (oracle i) = false) →
      AppMain.update_job_status key oracle (some j) =
        (some (AppMain.runFrom key oracle 120 0 j), 120) ∧
      (j.status ≠ stFailed →
        (AppMain.runFrom key oracle 120 0 j).status ≠ stFailed)) := by
  refine ⟨rfl, rfl, ?_, ?_, ?_⟩
  · simpa [AppMain.update_job_status, AppMain.max_attempts] using
      monitorRun_count_le key oracle 120 0 (some j)
  · intro i hi ht hk
    have := monitorRun_stops_at_first_terminal key oracle i 120 0 j hi
      (by simpa using ht) (fun k hh => by simpa using hk k hh)
    simpa [AppMain.update_job_status, AppMain.max_attempts] using this
  · intro h
    refine ⟨?_, fun hj => runFrom_keeps_not_failed key oracle 120 0 j hj
      (fun k hk => by simpa using h k hk)⟩
    have := monitorRun_nonterminal key oracle 120 0 j
      (fun k hk => by simpa using h k hk)
    simpa [AppMain.update_job_status, AppMain.max_attempts] using this

def procOracle : Nat → CycleOutcome := fun _ => CycleOutcome.ok processingCall

set_option maxRecDepth 4000 in
/-- Witness for claim C4: with the external service reporting InProgress on
every poll, the monitor runs exactly 120 cycles and leaves the row in
processing. -/
theorem monitor_bounded_termination_witness :
    (AppMain.update_job_status true procOracle (some pendingJob)).2 ≤ 120 ∧
    AppMain.update_job_status true procOracle (some pendingJob) =
      (some { pendingJob with status := stProcessing }, 120) := by
  have h := monitor_bounded_termination true procOracle pendingJob
  have h5 := h.2.2.2.2 (fun i _ => rfl)
  refine ⟨h.2.2.1, ?_⟩
  rw [h5.1]
  rfl

/-! ### Lemmas about the store queries and the on-demand check -/

/-- A row returned by the owner-scoped lookup has the requested id and owner
and belongs to the store. -/
lemma find_job_for_owner_spec (store : List Job) (jid uid : Nat) (j : Job)
    (h : find_job_for_owner store jid uid = some j) :
    j.id = jid ∧ j.owner_id = uid ∧ j ∈ store := by
  rw [find_job_for_owner] at h
  have h1 := List.find?_some h
  have h2 := List.mem_of_find?_eq_some h
  simp only [Bool.and_eq_true, beq_iff_eq] at h1
  exact ⟨h1.1, h1.2, h2⟩

/-- When no row matches both the id and the owner, the lookup returns None. -/
lemma find_job_for_owner_none (store : List Job) (jid uid : Nat)
    (h : ∀ x, x ∈ store → ¬(x.id = jid ∧ x.owner_id = uid)) :
    find_job_for_owner store jid uid = none := by
  rw [find_job_for_owner, List.find?_eq_none]
  intro x hx
  simp only [Bool.and_eq_true, beq_iff_eq, not_and]
  intro h1 h2
  exact h x hx ⟨h1, h2⟩

/-- After persisting a mutated row with the same primary key and owner, the
owner-scoped lookup returns the mutated row. -/
lemma find_job_for_owner_update (jid uid : Nat) (j j2 : Job)
    (h2id : j2.id = j.id) (h2own : j2.owner_id = uid) :
    ∀ store : List Job, find_job_for_owner store jid uid = some j →
      find_job_for_owner (updateJob store j.id j2) jid uid = some j2 := by
  intro store
  induction store with
  | nil => intro h; simp [find_job_for_owner] at h
  | cons x xs ih =>
      intro h
      have hjid : j.id = jid := (find_job_for_owner_spec _ _ _ _ h).1
      simp only [find_job_for_owner, updateJob, List.map_cons, List.find?_cons]
        at h ⊢
      by_cases hxj : (x.id == j.id) = true
      · simp only [hxj, if_true]
        have hp2 : (j2.id == jid && j2.owner_id == uid) = true := by
          simp [h2id, hjid, h2own]
        simp [hp2]
      · have hxf : (x.id == j.id) = false := by rwa [Bool.not_eq_true] at hxj
        cases hpx : (x.id == jid && x.owner_id == uid) with
        | true =>
            simp only [hpx] at h
            injection h with hh
            rw [hh] at hxf
            simp at hxf
        | false =>
            simp only [hpx] at h
            simp only [hxf, if_false, Bool.false_eq_true, hpx]
            simpa [find_job_for_owner, updateJob] using ih h

/-- Re-persisting the same row under the same key is a no-op. -/
lemma updateJob_twice (store : List Job) (i : Nat) (j2 : Job) (h : j2.id = i) :
    updateJob (updateJob store i j2) i j2 = updateJob store i j2 := by
  induction store with
  | nil => rfl
  | cons x xs ih =>
      simp only [updateJob, List.map_cons, List.cons.injEq]
      refine ⟨?_, ?_⟩
      · by_cases hx : (x.id == i) = true
        · simp [hx, h]
        · have hxf : (x.id == i) = false := by rwa [Bool.not_eq_true] at hx
          simp [hxf]
      · simpa [updateJob] using ih

lemma reconcile_id (j : Job) (sr : StatusResult) : (reconcile j sr).id = j.id := by
  unfold reconcile; split_ifs <;> rfl

lemma reconcile_owner (j : Job) (sr : StatusResult) :
    (reconcile j sr).owner_id = j.owner_id := by
  unfold reconcile; split_ifs <;> rfl

lemma reconcile_req (j : Job) (sr : StatusResult) :
    (reconcile j sr).fal_request_id = j.fal_request_id := by
  unfold reconcile; split_ifs <;> rfl

/-- Re-reconciling an already reconciled row against the same report changes
nothing. -/
lemma reconcile_idem (j : Job) (sr : StatusResult) :
    reconcile (reconcile j sr) sr = reconcile j sr := by
  unfold reconcile; split_ifs <;> rfl

/-- A completed report with no extractable result reconciles to failed. -/
lemma reconcile_completed_null (j : Job) (sr : StatusResult)
    (h1 : sr.status = stCompleted) (h2 : sr.result_url = none) :
    reconcile j sr = { j with status := stFailed, result_url := none } := by
  simp [reconcile, h1, h2]

/-- The status carried in the response of the on-demand check is always the
status of the row the store holds after the call. -/
lemma ondemand_statusOut_eq (key : Bool) (call : FalCall) (store : List Job)
    (jid uid : Nat) :
    (AppMain.check_job_status key call store jid uid).statusOut =
      (find_job_for_owner
          (AppMain.check_job_status key call store jid uid).store jid uid).map
        Job.status := by
  cases hf : find_job_for_owner store jid uid with
  | none => simp [AppMain.check_job_status, hf]
  | some j =>
      have hspec := find_job_for_owner_spec store jid uid j hf
      cases hg : (j.status == stCompleted && optStrTruthy j.fal_request_id) with
      | false => simp [AppMain.check_job_status, hf, hg]
      | true =>
          cases hc : FalApi.check_job_status key call with
          | error e => simp [AppMain.check_job_status, hf, hg, hc]
          | ok sr =>
              have hupd := find_job_for_owner_update jid uid j (reconcile j sr)
                (reconcile_id j sr)
                (by rw [reconcile_owner]; exact hspec.2.1) store hf
              simp [AppMain.check_job_status, hf, hg, hc, hupd]

/-- The on-demand check queries the external service exactly when the stored
row was found, believes itself completed, and has a truthy external request
id. -/
lemma ondemand_queried_iff (key : Bool) (call : FalCall) (store : List Job)
    (jid uid : Nat) :
    (AppMain.check_job_status key call store jid uid).queried = true ↔
      ∃ j, find_job_for_owner store jid uid = some j ∧
        j.status = stCompleted ∧ optStrTruthy j.fal_request_id = true := by
  cases hf : find_job_for_owner store jid uid with
  | none =>
      simp [AppMain.check_job_status, hf]
  | some j =>
      cases hg : (j.status == stCompleted && optStrTruthy j.fal_request_id) with
      | false =>
          have hout : AppMain.check_job_status key call store jid uid =
              ⟨store, true, some j.status, none, false⟩ := by
            simp [AppMain.check_job_status, hf, hg]
          rw [hout]
          constructor
          · intro hq; exact absurd hq (by simp)
          · rintro ⟨j2, hj2, hs, ht⟩
            injection hj2 with he
            subst he
            simp [hs, ht] at hg
      | true =>
          have hand := hg
          rw [Bool.and_eq_true, beq_iff_eq] at hand
          constructor
          · intro _
            exact ⟨j, rfl, hand.1, hand.2⟩
          · intro _
            cases hc : FalApi.check_job_status key call with
            | error e => simp [AppMain.check_job_status, hf, hg, hc]
            | ok sr => simp [AppMain.check_job_status, hf, hg, hc]

/-- When the external service is not contacted, the store is left as it
was. -/
lemma ondemand_store_unchanged (key : Bool) (call : FalCall)
    (store : List Job) (jid uid : Nat)
    (h : (AppMain.check_job_status key call store jid uid).queried = false) :
    (AppMain.check_job_status key call store jid uid).store = store := by
  cases hf : find_job_for_owner store jid uid with
  | none => simp [AppMain.check_job_status, hf]
  | some j =>
      cases hg : (j.status == stCompleted && optStrTruthy j.fal_request_id) with
      | false => simp [AppMain.check_job_status, hf, hg]
      | true =>
          exfalso
          cases hc : FalApi.check_job_status key call with
          | error e =>
              rw [show (AppMain.check_job_status key call store jid uid).queried
                  = true from by simp [AppMain.check_job_status, hf, hg, hc]] at h
              exact absurd h (by simp)
          | ok sr =>
              rw [show (AppMain.check_job_status key call store jid uid).queried
                  = true from by simp [AppMain.check_job_status, hf, hg, hc]] at h
              exact absurd h (by simp)

/-- Running the on-demand check again on its own output store (with the
external report unchanged) does not move the store. -/
lemma ondemand_store_stable (key : Bool) (call : FalCall) (store : List Job)
    (jid uid : Nat) :
    (AppMain.check_job_status key call
        (AppMain.check_job_status key call store jid uid).store jid uid).store =
      (AppMain.check_job_status key call store jid uid).store := by
  cases hf : find_job_for_owner store jid uid with
  | none =>
      have hout : AppMain.check_job_status key call store jid uid =
          ⟨store, false, none, none, false⟩ := by
        simp [AppMain.check_job_status, hf]
      rw [hout]
      simp [AppMain.check_job_status, hf]
  | some j =>
      have hspec := find_job_for_owner_spec store jid uid j hf
      cases hg : (j.status == stCompleted && optStrTruthy j.fal_request_id) with
      | false =>
          have hout : AppMain.check_job_status key call store jid uid =
              ⟨store, true, some j.status, none, false⟩ := by
            simp [AppMain.check_job_status, hf, hg]
          rw [hout]
          simp [AppMain.check_job_status, hf, hg]
      | true =>
          cases hc : FalApi.check_job_status key call with
          | error e =>
              have hout : AppMain.check_job_status key call store jid uid =
                  ⟨store, true, some j.status, none, true⟩ := by
                simp [AppMain.check_job_status, hf, hg, hc]
              rw [hout]
              simp [AppMain.check_job_status, hf, hg, hc]
          | ok sr =>
              have hout : AppMain.check_job_status key call store jid uid =
                  ⟨updateJob store j.id (reconcile j sr), true,
                   some (reconcile j sr).status, sr.result_url, true⟩ := by
                simp [AppMain.check_job_status, hf, hg, hc]
              rw [hout]
              have hupd := find_job_for_owner_update jid uid j (reconcile j sr)
                (reconcile_id j sr)
                (by rw [reconcile_owner]; exact hspec.2.1) store hf
              cases hg2 : ((reconcile j sr).status == stCompleted &&
                  optStrTruthy (reconcile j sr).fal_request_id) with
              | false => simp [AppMain.check_job_status, hupd, hg2]
              | true =>
                  simp only [AppMain.check_job_status, hupd, hg2, hc]
                  rw [reconcile_idem, reconcile_id]
                  exact updateJob_twice store j.id (reconcile j sr)
                    (reconcile_id j sr)

/-- Claim C3: the on-demand status check queries the external service exactly
once iff the stored row is believed completed and has an external request id;
otherwise it leaves the store untouched; it always reports the status the
store holds after the call; and a completed report whose result url is None
is reconciled to failed. -/
theorem ondemand_reconciles_iff_completed (key : Bool) (call : FalCall)
    (store : List Job) (jid uid : Nat) :
    ((AppMain.check_job_status key call store jid uid).queried = true ↔
      ∃ j, find_job_for_owner store jid uid = some j ∧
        j.status = stCompleted ∧ optStrTruthy j.fal_request_id = true) ∧
    ((AppMain.check_job_status key call store jid uid).queried = false →
      (AppMain.check_job_status key call store jid uid).store = store) ∧
    (AppMain.check_job_status key call store jid uid).statusOut =
      (find_job_for_owner
          (AppMain.check_job_status key call store jid uid).store jid uid).map
        Job.status ∧
    (∀ j sr, find_job_for_owner store jid uid = some j →
      FalApi.check_job_status key call = Except.ok sr →
      j.status = stCompleted → optStrTruthy j.fal_request_id = true →
      sr.status = stCompleted → sr.result_url = none →
      (AppMain.check_job_status key call store jid uid).store =
        updateJob store j.id { j with status := stFailed, result_url := none } ∧
      (AppMain.check_job_status key call store jid uid).statusOut =
        some stFailed) := by
  refine ⟨ondemand_queried_iff key call store jid uid,
    ondemand_store_unchanged key call store jid uid,
    ondemand_statusOut_eq key call store jid uid, ?_⟩
  intro j sr hf hc hs ht hsrs hsru
  have hg : (j.status == stCompleted && optStrTruthy j.fal_request_id) = true := by
    simp [hs, ht]
  have hout : AppMain.check_job_status key call store jid uid =
      ⟨updateJob store j.id (reconcile j sr), true,
       some (reconcile j sr).status, sr.result_url, true⟩ := by
    simp [AppMain.check_job_status, hf, hg, hc]
  rw [hout, reconcile_completed_null j sr hsrs hsru]
  exact ⟨rfl, rfl⟩

/-- Witness for claim C3: a concrete completed row whose re-query reports
completed with no extractable result is stored as failed, and the response
carries failed. -/
theorem ondemand_reconciles_witness :
    find_job_for_owner [completedJob] 2 1 = some completedJob ∧
    FalApi.check_job_status true nullResultCall =
      Except.ok ⟨stCompleted, none⟩ ∧
    (AppMain.check_job_status true nullResultCall [completedJob] 2 1).store =
      updateJob [completedJob] completedJob.id
        { completedJob with status := stFailed, result_url := none } ∧
    (AppMain.check_job_status true nullResultCall [completedJob] 2 1).statusOut
      = some stFailed := by
  have h := (ondemand_reconciles_iff_completed true nullResultCall
    [completedJob] 2 1).2.2.2 completedJob ⟨stCompleted, none⟩ rfl rfl rfl rfl
    rfl rfl
  exact ⟨rfl, rfl, h.1, h.2⟩

/-- Claim C8: the on-demand status check is idempotent: running it twice with
the same external report leaves the store where the first run put it and
returns the same stored status both times. -/
theorem ondemand_idempotent (key : Bool) (call : FalCall) (store : List Job)
    (jid uid : Nat) :
    (AppMain.check_job_status key call
        (AppMain.check_job_status key call store jid uid).store jid uid).store =
      (AppMain.check_job_status key call store jid uid).store ∧
    (AppMain.check_job_status key call
        (AppMain.check_job_status key call store jid uid).store jid uid).statusOut
      = (AppMain.check_job_status key call store jid uid).statusOut := by
  refine ⟨ondemand_store_stable key call store jid uid, ?_⟩
  rw [ondemand_statusOut_eq key call store jid uid,
    ondemand_statusOut_eq key call
      (AppMain.check_job_status key call store jid uid).store jid uid,
    ondemand_store_stable key call store jid uid]

/-- Claim C6: owner-scoped reads never return a row of another owner; for a
requester who owns no row with the given id the get-job and status-check
endpoints answer with the literal not-found response, which is the same
answer a nonexistent id gets. -/
theorem owner_scoped_reads_no_leak (key : Bool) (call : FalCall)
    (store : List Job) (jid uid : Nat) :
    (∀ j, (AppMain.get_job store jid uid).data = some j →
      j.owner_id = uid ∧ j ∈ store) ∧
    ((∀ x, x ∈ store → ¬(x.id = jid ∧ x.owner_id = uid)) →
      AppMain.get_job store jid uid = ⟨false, msgJobNotFound, none⟩ ∧
      AppMain.check_job_status key call store jid uid =
        ⟨store, false, none, none, false⟩) ∧
    (∀ jid2 uid2, (∀ x, x ∈ store → ¬(x.id = jid ∧ x.owner_id = uid)) →
      (∀ x, x ∈ store → ¬(x.id = jid2 ∧ x.owner_id = uid2)) →
      AppMain.get_job store jid uid = AppMain.get_job store jid2 uid2) := by
  refine ⟨?_, ?_, ?_⟩
  · intro j hj
    cases hf : find_job_for_owner store jid uid with
    | none => simp [AppMain.get_job, hf] at hj
    | some j0 =>
        simp only [AppMain.get_job, hf] at hj
        have hs := find_job_for_owner_spec store jid uid j0 hf
        injection hj with he
        rw [← he]
        exact ⟨hs.2.1, hs.2.2⟩
  · intro h
    have hf := find_job_for_owner_none store jid uid h
    exact ⟨by simp [AppMain.get_job, hf], by simp [AppMain.check_job_status, hf]⟩
  · intro jid2 uid2 h1 h2
    have hf1 := find_job_for_owner_none store jid uid h1
    have hf2 := find_job_for_owner_none store jid2 uid2 h2
    simp [AppMain.get_job, hf1, hf2]

/-- Witness for claim C6: user 2 asking for the job with id 2 owned by user 1
receives the literal not-found responses. -/
theorem owner_scoped_reads_witness :
    AppMain.get_job [completedJob] 2 2 = ⟨false, msgJobNotFound, none⟩ ∧
    AppMain.check_job_status true failCall [completedJob] 2 2 =
      ⟨[completedJob], false, none, none, false⟩ :=
  (owner_scoped_reads_no_leak true failCall [completedJob] 2 2).2.1
    (by decide)

/-! ### Lemmas about job creation -/

/-- When the credential is unconfigured or the submission fails, no row is
persisted and the response reports failure. -/
lemma create_submit_fail (key : Bool) (image_len : Option Nat)
    (image_url : Option String) (handler : Except Unit String)
    (uid newId : Nat) (prompt : String) (strength : Rat)
    (h : key = false ∨ handler = Except.error ()) :
    (AppMain.create_submit key image_len image_url handler uid newId prompt
        strength).job = none ∧
    (AppMain.create_submit key image_len image_url handler uid newId prompt
        strength).success = false := by
  rcases h with hk | hh
  · subst hk
    simp [AppMain.create_submit, FalApi.submit_fal_job]
  · subst hh
    cases key <;> simp [AppMain.create_submit, FalApi.submit_fal_job]

/-- A persisted row means the submission went through. -/
lemma create_submit_job_some (key : Bool) (image_len : Option Nat)
    (image_url : Option String) (handler : Except Unit String)
    (uid newId : Nat) (prompt : String) (strength : Rat)
    (h : (AppMain.create_submit key image_len image_url handler uid newId
        prompt strength).job ≠ none) :
    (AppMain.create_submit key image_len image_url handler uid newId prompt
        strength).success = true ∧
    (AppMain.create_submit key image_len image_url handler uid newId prompt
        strength).attempted_submit = true := by
  cases hs : FalApi.submit_fal_job key image_len handler with
  | error msg => simp [AppMain.create_submit, hs] at h
  | ok resp => simp [AppMain.create_submit, hs]

/-- Claim C5: job creation is atomic with respect to failure.  An upload that
fails validation is rejected with its validation message, with no external
submission attempted and no row persisted; when the submission raises
(credential unconfigured or service failure) no row is persisted and failure
is reported; and a persisted row only exists when the response reports
success after an attempted submission. -/
theorem create_job_fail_atomic (key : Bool) (upload : Option Upload)
    (handler : Except Unit String) (uid newId : Nat) (prompt : String)
    (strength : Rat) :
    (∀ u msg, upload = some u → u.filename ≠ "" →
      validate_upload u = some msg →
      AppMain.create_job key upload handler uid newId prompt strength =
        ⟨false, msg, false, none⟩) ∧
    ((key = false ∨ handler = Except.error ()) →
      (AppMain.create_job key upload handler uid newId prompt strength).job =
        none ∧
      (AppMain.create_job key upload handler uid newId prompt
          strength).success = false) ∧
    ((AppMain.create_job key upload handler uid newId prompt strength).job ≠
        none →
      (AppMain.create_job key upload handler uid newId prompt
          strength).success = true ∧
      (AppMain.create_job key upload handler uid newId prompt
          strength).attempted_submit = true) := by
  refine ⟨?_, ?_, ?_⟩
  · intro u msg hu hfn hv
    subst hu
    simp [AppMain.create_job, hv, bne_iff_ne, hfn]
  · intro h
    cases upload with
    | none =>
        exact create_submit_fail key none none handler uid newId prompt
          strength h
    | some u =>
        by_cases hfn : (u.filename != "") = true
        · cases hv : validate_upload u with
          | some msg => simp [AppMain.create_job, hfn, hv]
          | none =>
              have := create_submit_fail key (some u.data_len)
                (some (String.append dataUrlPre u.b64)) handler uid newId
                prompt strength h
              simpa [AppMain.create_job, hfn, hv] using this
        · have hfn2 : (u.filename != "") = false := by
            rwa [Bool.not_eq_true] at hfn
          have := create_submit_fail key none none handler uid newId prompt
            strength h
          simpa [AppMain.create_job, hfn2] using this
  · intro h
    cases upload with
    | none =>
        exact create_submit_job_some key none none handler uid newId prompt
          strength h
    | some u =>
        by_cases hfn : (u.filename != "") = true
        · cases hv : validate_upload u with
          | some msg => simp [AppMain.create_job, hfn, hv] at h
          | none =>
              rw [show AppMain.create_job key (some u) handler uid newId
                  prompt strength = AppMain.create_submit key (some u.data_len)
                  (some (String.append dataUrlPre u.b64)) handler uid newId
                  prompt strength from by simp [AppMain.create_job, hfn, hv]]
              apply create_submit_job_some
              rw [show AppMain.create_job key (some u) handler uid newId
                  prompt strength = AppMain.create_submit key (some u.data_len)
                  (some (String.append dataUrlPre u.b64)) handler uid newId
                  prompt strength from by simp [AppMain.create_job, hfn, hv]]
                at h
              exact h
        · have hfn2 : (u.filename != "") = false := by
            rwa [Bool.not_eq_true] at hfn
          rw [show AppMain.create_job key (some u) handler uid newId prompt
              strength = AppMain.create_submit key none none handler uid newId
              prompt strength from by simp [AppMain.create_job, hfn2]]
          apply create_submit_job_some
          rw [show AppMain.create_job key (some u) handler uid newId prompt
              strength = AppMain.create_submit key none none handler uid newId
              prompt strength from by simp [AppMain.create_job, hfn2]] at h
          exact h

/-- A 50 by 50 pixel upload, below the 64 pixel minimum. -/
def smallUpload : Upload :=
  { filename := "a.png", content_type := "image/png", data_len := 100,
    b64 := "QUJD", pil := some (50, 50) }

/-- Witness for claim C5: the 50x50 upload is rejected with the
dimensions-too-small message, no submission, no row; and with the credential
unconfigured no row is persisted. -/
theorem create_job_fail_atomic_witness :
    (validate_upload smallUpload = some msgTooSmallDims ∧
      AppMain.create_job true (some smallUpload) (Except.ok rid1) 1 1
        "make it blue" (7 / 10) = ⟨false, msgTooSmallDims, false, none⟩) ∧
    ((AppMain.create_job false none (Except.ok rid1) 1 1 "a cat"
        (7 / 10)).job = none ∧
      (AppMain.create_job false none (Except.ok rid1) 1 1 "a cat"
        (7 / 10)).success = false) := by
  constructor
  · exact ⟨rfl, (create_job_fail_atomic true (some smallUpload)
      (Except.ok rid1) 1 1 "make it blue" (7 / 10)).1 smallUpload
      msgTooSmallDims rfl (by decide) rfl⟩
  · exact (create_job_fail_atomic false none (Except.ok rid1) 1 1 "a cat"
      (7 / 10)).2.1 (Or.inl rfl)

/-! ### Pagination -/

instance : IsTotal Job (fun a b => b.id ≤ a.id) :=
  ⟨fun a b => Nat.le_total b.id a.id⟩

instance : IsTrans Job (fun a b => b.id ≤ a.id) :=
  ⟨fun _ _ _ hab hbc => Nat.le_trans hbc hab⟩

/-- The id-descending ordering of a user page is a permutation of the
owner-filtered store with no duplicate rows when the store has no duplicate
primary keys. -/
lemma jobsDesc_nodup (store : List Job) (uid : Nat)
    (hnd : (store.map Job.id).Nodup) :
    (jobsDesc (store.filter (fun j => j.owner_id == uid))).Nodup := by
  have hndf : ((store.filter (fun j => j.owner_id == uid)).map Job.id).Nodup :=
    List.Nodup.sublist
      (List.Sublist.map Job.id (List.filter_sublist store)) hnd
  have hperm :=
    List.perm_insertionSort (fun a b : Job => b.id ≤ a.id)
      (store.filter (fun j => j.owner_id == uid))
  have hmap := hperm.map Job.id
  exact List.Nodup.of_map Job.id (hmap.nodup_iff.mpr hndf)

/-- Claim C9: for a fixed store, pages 1 and 2 with limit 20 contain only the
jobs of the requesting user, are disjoint (given distinct primary keys),
together form the contiguous first 40 entries of the id-descending listing of
the user, and are ordered newest-first throughout. -/
theorem pagination_pages_disjoint_contiguous (store : List Job) (uid : Nat)
    (hnd : (store.map Job.id).Nodup) :
    (∀ j, j ∈ AppMain.list_jobs store uid 1 20 ++
        AppMain.list_jobs store uid 2 20 → j.owner_id = uid) ∧
    (∀ j, j ∈ AppMain.list_jobs store uid 1 20 →
      j ∉ AppMain.list_jobs store uid 2 20) ∧
    AppMain.list_jobs store uid 1 20 ++ AppMain.list_jobs store uid 2 20 =
      (jobsDesc (store.filter (fun j => j.owner_id == uid))).take 40 ∧
    List.Sorted (fun a b => b.id ≤ a.id)
      (AppMain.list_jobs store uid 1 20 ++
        AppMain.list_jobs store uid 2 20) := by
  have hp1 : AppMain.list_jobs store uid 1 20 =
      (jobsDesc (store.filter (fun j => j.owner_id == uid))).take 20 := by
    simp [AppMain.list_jobs]
  have hp2 : AppMain.list_jobs store uid 2 20 =
      ((jobsDesc (store.filter (fun j => j.owner_id == uid))).drop 20).take
        20 := by
    simp [AppMain.list_jobs]
  have hperm :=
    List.perm_insertionSort (fun a b : Job => b.id ≤ a.id)
      (store.filter (fun j => j.owner_id == uid))
  have hcontig : AppMain.list_jobs store uid 1 20 ++
      AppMain.list_jobs store uid 2 20 =
      (jobsDesc (store.filter (fun j => j.owner_id == uid))).take 40 := by
    rw [hp1, hp2, show (40 : Nat) = 20 + 20 from rfl, List.take_add]
  refine ⟨?_, ?_, hcontig, ?_⟩
  · intro j hj
    rw [hcontig] at hj
    have hjs : j ∈ jobsDesc (store.filter (fun j => j.owner_id == uid)) :=
      List.mem_of_mem_take hj
    have hjf := hperm.mem_iff.mp hjs
    have := (List.mem_filter.mp hjf).2
    simpa using this
  · intro j hj1 hj2
    rw [hp1] at hj1
    rw [hp2] at hj2
    exact List.disjoint_take_drop (jobsDesc_nodup store uid hnd)
      (Nat.le_refl 20) hj1 (List.mem_of_mem_take hj2)
  · rw [hcontig]
    exact List.Pairwise.sublist (List.take_sublist 40 _)
      (List.sorted_insertionSort (fun a b : Job => b.id ≤ a.id)
        (store.filter (fun j => j.owner_id == uid)))

def pageJob1 : Job := { pendingJob with id := 11 }

def pageJob2 : Job := { pendingJob with id := 12, owner_id := 2 }

def pageJob3 : Job := { pendingJob with id := 13 }

/-- Witness for claim C9 on a concrete three-row store with distinct ids and
two owners. -/
theorem pagination_pages_witness :
    ([pageJob3, pageJob1, pageJob2].map Job.id).Nodup ∧
    AppMain.list_jobs [pageJob3, pageJob1, pageJob2] 1 1 20 ++
        AppMain.list_jobs [pageJob3, pageJob1, pageJob2] 1 2 20 =
      (jobsDesc ([pageJob3, pageJob1, pageJob2].filter
          (fun j => j.owner_id == 1))).take 40 :=
  ⟨by decide,
    (pagination_pages_disjoint_contiguous [pageJob3, pageJob1, pageJob2] 1
      (by decide)).2.2.1⟩
